import Mathlib

/-!
Verification of the Workflow and Batch Orchestration Engine of the
Corporate-Agent backend.

The development shallowly embeds the two route modules that carry the
state-machine logic:

* the approval-workflow routes (create workflow, decide a step, cancel a
  workflow), whose step-decision handler verifies the caller is the approver
  of the step, checks the step order against the workflow currentStep, and
  then performs two separate row updates (step row, workflow row);
* the bulk-booking routes (create batch with items, process a batch), whose
  processing helper resolves every PENDING item, recomputes the success and
  failure counters over the full item set, and writes the final status.

Database rows become Lean structures; the Prisma column defaults of the
schema (currentStep = 1, workflow status PENDING, step status PENDING,
batch status PROCESSING, counters 0, item status PENDING) are applied at
the points where the handlers rely on them.  Timestamps are modelled as
natural numbers supplied by the caller (the value of Date.now at the call),
and row identifiers as natural numbers.  Each handler becomes a pure
function from the pre-state and the request to either an error kind (the
4xx early returns of the handler, which happen before any write) or the
post-state.
-/

namespace CorporateAgent

/-! ## Workflow engine data model (routes/approvalWorkflows) -/

/-- Enum StepStatus of the Prisma schema. -/
inductive StepStatus
  | PENDING
  | IN_PROGRESS
  | APPROVED
  | REJECTED
  | SKIPPED
deriving DecidableEq, Repr

/-- Enum WorkflowStatus of the Prisma schema. -/
inductive WorkflowStatus
  | PENDING
  | IN_PROGRESS
  | APPROVED
  | REJECTED
  | CANCELLED
deriving DecidableEq, Repr

/-- The decision value sent in the body of the step-decision request.  The
workflow design admits the two verdicts APPROVED and REJECTED. -/
inductive Verdict
  | APPROVED
  | REJECTED
deriving DecidableEq, Repr

/-- A workflow_steps row, restricted to the columns the handlers read or
write. -/
structure WorkflowStep where
  id : Nat
  stepOrder : Nat
  approverId : Option Nat
  isOptional : Bool
  status : StepStatus
  comments : Option String
  approverNotes : Option String
  processedAt : Option Nat
  processedBy : Option Nat
deriving DecidableEq, Repr

/-- An approval_workflows row together with its owned step rows. -/
structure Workflow where
  currentStep : Nat
  totalSteps : Nat
  status : WorkflowStatus
  completedAt : Option Nat
  cancellationReason : Option String
  steps : List WorkflowStep
deriving DecidableEq, Repr

/-- The early-return error kinds of the workflow route handlers. -/
inductive WfError
  | EmptySteps
  | StepNotFound
  | StepNotActive
  | NotCancellable
deriving DecidableEq, Repr

/-- The shape of one entry of the steps array of the create-workflow
request. -/
structure StepInput where
  approverId : Option Nat
  isOptional : Bool
deriving DecidableEq, Repr

/-- One created step row: stepOrder = index + 1 as in the create handler,
status PENDING from the column default, row id taken to be the position. -/
def mkStep (i : Nat) (inp : StepInput) : WorkflowStep :=
  { id := i + 1
    stepOrder := i + 1
    approverId := inp.approverId
    isOptional := inp.isOptional
    status := .PENDING
    comments := none
    approverNotes := none
    processedAt := none
    processedBy := none }

/-- The step rows created for the input list, counting positions from i. -/
def mkSteps : Nat → List StepInput → List WorkflowStep
  | _, [] => []
  | i, inp :: rest => mkStep i inp :: mkSteps (i + 1) rest

/-- The create-workflow handler: rejects an empty steps array, otherwise
creates the workflow with totalSteps = steps.length and the column defaults
currentStep = 1 and status PENDING, and one PENDING step row per entry. -/
def createWorkflow (stepsIn : List StepInput) : Except WfError Workflow :=
  if stepsIn.length = 0 then .error .EmptySteps
  else .ok
    { currentStep := 1
      totalSteps := stepsIn.length
      status := .PENDING
      completedAt := none
      cancellationReason := none
      steps := mkSteps 0 stepsIn }

/-- The findFirst of the step-decision handler: the step row with the given
id whose approverId equals the acting agent. -/
def findStep (w : Workflow) (stepId agentId : Nat) : Option WorkflowStep :=
  w.steps.find? fun s => s.id = stepId ∧ s.approverId = some agentId

/-- The step status written by the step-decision handler for a verdict. -/
def verdictStepStatus : Verdict → StepStatus
  | .APPROVED => .APPROVED
  | .REJECTED => .REJECTED

/-- The data object of the workflowStep.update call of the step-decision
handler. -/
def updateStepRecord (v : Verdict) (comments approverNotes : Option String)
    (agentId now : Nat) (s : WorkflowStep) : WorkflowStep :=
  { s with
    status := verdictStepStatus v
    comments := comments
    approverNotes := approverNotes
    processedAt := some now
    processedBy := some agentId }

/-- The step list after the workflowStep.update call: the row with the
given id carries the decision, every other row is untouched. -/
def decidedSteps (w : Workflow) (stepId agentId : Nat) (v : Verdict)
    (comments approverNotes : Option String) (now : Nat) : List WorkflowStep :=
  w.steps.map fun s =>
    if s.id = stepId then updateStepRecord v comments approverNotes agentId now s else s

/-- The step-decision handler.  It returns 404 when no step row matches
(step id, workflow, approver = caller), returns 400 when the step order is
not the workflow currentStep, and otherwise updates the step row and then
the workflow row: on APPROVED it increments currentStep when the step is
not the last one and otherwise marks the workflow APPROVED with completedAt;
on REJECTED it marks the workflow REJECTED with completedAt.  Both early
returns happen before any write, so the error cases carry no state. -/
def decideStep (w : Workflow) (stepId agentId : Nat) (v : Verdict)
    (comments approverNotes : Option String) (now : Nat) :
    Except WfError Workflow :=
  match findStep w stepId agentId with
  | none => .error .StepNotFound
  | some step =>
    if w.currentStep ≠ step.stepOrder then .error .StepNotActive
    else
      match v with
      | .APPROVED =>
        if step.stepOrder < w.totalSteps then
          .ok { w with steps := decidedSteps w stepId agentId v comments approverNotes now
                       currentStep := step.stepOrder + 1 }
        else
          .ok { w with steps := decidedSteps w stepId agentId v comments approverNotes now
                       status := .APPROVED, completedAt := some now }
      | .REJECTED =>
        .ok { w with steps := decidedSteps w stepId agentId v comments approverNotes now
                     status := .REJECTED, completedAt := some now }

/-- The cancel-workflow handler: only a PENDING or IN_PROGRESS workflow may
be cancelled; cancellation sets status CANCELLED, completedAt and the
cancellation reason, and touches no step row. -/
def cancelWorkflow (w : Workflow) (reason : Option String) (now : Nat) :
    Except WfError Workflow :=
  if w.status ≠ .PENDING ∧ w.status ≠ .IN_PROGRESS then .error .NotCancellable
  else .ok { w with status := .CANCELLED, completedAt := some now, cancellationReason := reason }

/-- The step-decision handler cut short by a persistence failure of its
second write: the workflowStep.update has already been committed when the
approvalWorkflow.update fails, and the two updates are separate calls with
no enclosing transaction, so the steps carry the decision while the
workflow columns keep their previous values. -/
def decideStepWorkflowWriteLost (w : Workflow) (stepId agentId : Nat) (v : Verdict)
    (comments approverNotes : Option String) (now : Nat) :
    Except WfError Workflow :=
  match findStep w stepId agentId with
  | none => .error .StepNotFound
  | some step =>
    if w.currentStep ≠ step.stepOrder then .error .StepNotActive
    else
      .ok { w with steps := decidedSteps w stepId agentId v comments approverNotes now }

/-! ## Batch processor data model (routes/bulkBookings) -/

/-- Enum BulkItemStatus of the Prisma schema. -/
inductive ItemStatus
  | PENDING
  | SUCCESS
  | FAILED
deriving DecidableEq, Repr

/-- Enum BulkBookingStatus of the Prisma schema. -/
inductive BatchStatus
  | PROCESSING
  | COMPLETED
  | FAILED
  | CANCELLED
deriving DecidableEq, Repr

/-- A bulk_booking_items row, restricted to the columns the handlers read
or write. -/
structure BulkBookingItem where
  id : Nat
  sequenceNumber : Nat
  doctorId : Nat
  hospitalId : Nat
  status : ItemStatus
  appointmentId : Option Nat
  errorMessage : Option String
  processedAt : Option Nat
deriving DecidableEq, Repr

/-- A bulk_bookings row together with its owned item rows. -/
structure BulkBooking where
  totalItems : Nat
  successfulItems : Nat
  failedItems : Nat
  status : BatchStatus
  completedAt : Option Nat
  items : List BulkBookingItem
deriving DecidableEq, Repr

/-- The early-return error kinds of the create-bulk-booking handler. -/
inductive BulkError
  | MissingFields
  | EmptyAppointments
  | CustomerNotFound
deriving DecidableEq, Repr

/-- One entry of the appointments array of the create request, restricted
to the fields the created item rows keep in this model. -/
structure AppointmentInput where
  doctorId : Nat
  hospitalId : Nat
deriving DecidableEq, Repr

/-- The item rows created for the appointments array: sequenceNumber =
index + 1, status PENDING from the column default. -/
def mkItems : Nat → List AppointmentInput → List BulkBookingItem
  | _, [] => []
  | i, apt :: rest =>
    { id := i + 1
      sequenceNumber := i + 1
      doctorId := apt.doctorId
      hospitalId := apt.hospitalId
      status := .PENDING
      appointmentId := none
      errorMessage := none
      processedAt := none } :: mkItems (i + 1) rest

/-- The create-bulk-booking handler.  Customers are modelled as the list of
(customer id, owning agent id) pairs visible to the findFirst lookup.  The
handler rejects a request with a missing customerId, batchName or
appointments array, rejects an empty appointments array, and rejects a
customer id that does not exist with the submitting agent as owner; each of
these returns before the bulkBooking.create call, so no batch and no item
row is created.  Otherwise it creates the batch with totalItems =
appointments.length, the column defaults status PROCESSING and zero
counters, and one PENDING item per entry.  The handler applies no upper
bound to the length of the appointments array. -/
def createBulkBooking (customers : List (Nat × Nat)) (agentId : Nat)
    (customerId : Option Nat) (batchName : Option String)
    (appointments : Option (List AppointmentInput)) :
    Except BulkError BulkBooking :=
  match customerId, batchName, appointments with
  | some cid, some _, some apts =>
    if apts.length = 0 then .error .EmptyAppointments
    else if customers.any fun c => c.1 = cid ∧ c.2 = agentId then
      .ok
        { totalItems := apts.length
          successfulItems := 0
          failedItems := 0
          status := .PROCESSING
          completedAt := none
          items := mkItems 0 apts }
    else .error .CustomerNotFound
  | _, _, _ => .error .MissingFields

/-- One iteration of the processing loop of processaBulkBooking, applied to
an item.  The loop only touches the items loaded with status PENDING, so a
resolved item is left as it is.  The outcome oracle stands for the success
or failure of the appointment materialization of an item, and apptIdOf for
the id of the appointment row created on success. -/
def resolveItem (outcome : Nat → Bool) (apptIdOf : Nat → Nat) (now : Nat)
    (item : BulkBookingItem) : BulkBookingItem :=
  if item.status = .PENDING then
    if outcome item.id then
      { item with
          status := .SUCCESS
          appointmentId := some (apptIdOf item.id)
          processedAt := some now }
    else
      { item with
          status := .FAILED
          errorMessage := some "Simulated booking failure"
          processedAt := some now }
  else item

/-- The processaBulkBooking helper on its normal path: every PENDING item is
resolved to SUCCESS or FAILED, then the success and failure counters are
recomputed over the full item set and the batch row is updated with the
final status (FAILED when the failure count equals the number of items,
COMPLETED otherwise) and completedAt = now.  The intermediate write that
sets status PROCESSING before the loop is overwritten by this final update
and does not appear in the returned state. -/
def processBulkBooking (b : BulkBooking) (outcome : Nat → Bool)
    (apptIdOf : Nat → Nat) (now : Nat) : BulkBooking :=
  let items1 := b.items.map (resolveItem outcome apptIdOf now)
  let successCount := (items1.filter fun i => i.status = .SUCCESS).length
  let failedCount := (items1.filter fun i => i.status = .FAILED).length
  { b with
    items := items1
    status := if failedCount = items1.length then .FAILED else .COMPLETED
    successfulItems := successCount
    failedItems := failedCount
    completedAt := some now }

/-- The catch-all error path of processaBulkBooking: a thrown persistence
error (here taken at the first write, before any item is touched) makes the
handler write status FAILED and completedAt on the batch row, leaving the
counters and the items as they were. -/
def processBulkBookingCrash (b : BulkBooking) (now : Nat) : BulkBooking :=
  { b with status := .FAILED, completedAt := some now }

/-! ## Workflow reachability and the step-sequencing invariant -/

/-- The three terminal workflow statuses. -/
def TerminalStatus (st : WorkflowStatus) : Prop :=
  st = .APPROVED ∨ st = .REJECTED ∨ st = .CANCELLED

instance : DecidablePred TerminalStatus := fun st => by
  unfold TerminalStatus; infer_instance

/-- Workflow states reachable through the three handlers: created by the
create handler, then closed under successful step decisions and successful
cancellations. -/
inductive Reachable : Workflow → Prop
  | created (stepsIn : List StepInput) (w : Workflow) :
      createWorkflow stepsIn = .ok w → Reachable w
  | decided (w : Workflow) (stepId agentId : Nat) (v : Verdict)
      (comments approverNotes : Option String) (now : Nat) (w1 : Workflow) :
      Reachable w →
      decideStep w stepId agentId v comments approverNotes now = .ok w1 →
      Reachable w1
  | cancelled (w : Workflow) (reason : Option String) (now : Nat) (w1 : Workflow) :
      Reachable w → cancelWorkflow w reason now = .ok w1 → Reachable w1

/-- The invariant maintained by the three handlers: every step row has its
id equal to its step order and a step order between 1 and totalSteps, every
order between 1 and totalSteps is carried by some step row, the status
IN_PROGRESS is never assigned, and while the workflow is PENDING the rows
below currentStep are APPROVED and the rows from currentStep on are
PENDING, with currentStep between 1 and totalSteps. -/
def WfInv (w : Workflow) : Prop :=
  (∀ s ∈ w.steps, s.id = s.stepOrder ∧ 1 ≤ s.stepOrder ∧ s.stepOrder ≤ w.totalSteps) ∧
  (∀ k, 1 ≤ k → k ≤ w.totalSteps → ∃ s ∈ w.steps, s.stepOrder = k) ∧
  w.status ≠ .IN_PROGRESS ∧
  (w.status = .PENDING →
    1 ≤ w.currentStep ∧ w.currentStep ≤ w.totalSteps ∧
    ∀ s ∈ w.steps, (s.stepOrder < w.currentStep → s.status = .APPROVED) ∧
      (w.currentStep ≤ s.stepOrder → s.status = .PENDING))

/-! ## Approving every step in order -/

/-- The approver id attached to the k-th step (1-based) of a create
request. -/
def apvOf (stepsIn : List StepInput) (k : Nat) : Option Nat :=
  (stepsIn[k - 1]?).bind StepInput.approverId

/-- Sequential step decisions with verdict APPROVED: one decideStep call
per (step id, acting agent) pair, stopping at the first error. -/
def approveSteps (w : Workflow) (calls : List (Nat × Nat)) (now : Nat) :
    Except WfError Workflow :=
  match calls with
  | [] => .ok w
  | (stepId, agentId) :: rest =>
    match decideStep w stepId agentId .APPROVED none none now with
    | .error e => .error e
    | .ok w1 => approveSteps w1 rest now

/-- ChainCalls apv N c calls: calls is the in-order list of decisions for
the steps c, c+1, ..., N, each issued by the approver of its step. -/
inductive ChainCalls (apv : Nat → Option Nat) (N : Nat) : Nat → List (Nat × Nat) → Prop
  | done (c : Nat) : c = N + 1 → ChainCalls apv N c []
  | step (c a : Nat) (rest : List (Nat × Nat)) :
      c ≤ N → apv c = some a → ChainCalls apv N (c + 1) rest →
      ChainCalls apv N c ((c, a) :: rest)

/-- The mid-chain workflow shape: a PENDING workflow of N steps standing at
step c, with every step id equal to its step order and every remaining step
k (c ≤ k ≤ N) present as a PENDING row approved by apv k. -/
def MidState (apv : Nat → Option Nat) (N c : Nat) (w : Workflow) : Prop :=
  w.status = .PENDING ∧ w.totalSteps = N ∧ w.currentStep = c ∧
  1 ≤ c ∧ c ≤ N ∧
  (∀ s ∈ w.steps, s.id = s.stepOrder) ∧
  (∀ k, c ≤ k → k ≤ N → ∃ s ∈ w.steps, s.stepOrder = k ∧ s.status = .PENDING ∧
    s.approverId = apv k)

/-! ## Concrete fixtures

Small concrete traces through the handlers, used to instantiate the
universally quantified results below and to exhibit the behaviours the
handlers show on them. -/

/-- A placeholder workflow for extracting Except values; never reached on
the traces of this file. -/
def wfFallback : Workflow :=
  { currentStep := 0, totalSteps := 0, status := .PENDING, completedAt := none,
    cancellationReason := none, steps := [] }

/-- A placeholder batch for extracting Except values; never reached on the
traces of this file. -/
def bkFallback : BulkBooking :=
  { totalItems := 0, successfulItems := 0, failedItems := 0, status := .PROCESSING,
    completedAt := none, items := [] }

/-- A one-step workflow created for a single mandatory step with
approver 7. -/
def wfOne : Workflow := (createWorkflow [⟨some 7, false⟩]).toOption.getD wfFallback

/-- A two-step workflow with approver 7 on step 1 and approver 8 on the
optional step 2. -/
def wfTwo : Workflow :=
  (createWorkflow [⟨some 7, false⟩, ⟨some 8, true⟩]).toOption.getD wfFallback

/-- wfOne after approver 7 rejects its only step at time 3: a REJECTED
(terminal) workflow whose currentStep still points at step 1. -/
def wfOneRejected : Workflow :=
  (decideStep wfOne 1 7 .REJECTED none none 3).toOption.getD wfFallback

/-- wfOneRejected after approver 7 decides step 1 again, with APPROVED, at
time 4. -/
def wfOneRevised : Workflow :=
  (decideStep wfOneRejected 1 7 .APPROVED none none 4).toOption.getD wfFallback

/-- wfTwo after approver 7 approves step 1 at time 3. -/
def wfTwoApproved1 : Workflow :=
  (decideStep wfTwo 1 7 .APPROVED none none 3).toOption.getD wfFallback

/-- wfOne after a decision whose workflow write is lost. -/
def wfOneHalfWritten : Workflow :=
  (decideStepWorkflowWriteLost wfOne 1 7 .APPROVED none none 3).toOption.getD wfFallback

/-- wfOne cancelled at time 9. -/
def wfOneCancelled : Workflow :=
  (cancelWorkflow wfOne none 9).toOption.getD wfFallback

/-- A one-item batch created by agent 9 for its customer 5. -/
def bkOne : BulkBooking :=
  (createBulkBooking [(5, 9)] 9 (some 5) (some "batch one") (some [⟨1, 2⟩])).toOption.getD
    bkFallback

/-- bkOne after a fully successful processing run at time 10. -/
def bkOneDone : BulkBooking :=
  processBulkBooking bkOne (fun _ => true) (fun i => 100 + i) 10

/-- bkOneDone after a second processing run at time 20 (nothing left to
resolve). -/
def bkOneDoneAgain : BulkBooking :=
  processBulkBooking bkOneDone (fun _ => true) (fun i => 100 + i) 20

/-! ## Supporting lemmas -/

lemma mkSteps_mem {l : List StepInput} {i : Nat} :
    ∀ s ∈ mkSteps i l, s.id = s.stepOrder ∧ i + 1 ≤ s.stepOrder ∧
      s.stepOrder ≤ i + l.length ∧ s.status = .PENDING := by
  induction l generalizing i with
  | nil => intro s hs; simp [mkSteps] at hs
  | cons inp rest ih =>
    intro s hs
    rcases List.mem_cons.mp hs with hs | hs
    · subst hs; refine ⟨rfl, Nat.le_refl _, by simp [mkStep], rfl⟩
    · obtain ⟨h1, h2, h3, h4⟩ := ih s hs
      refine ⟨h1, Nat.le_of_succ_le h2, ?_, h4⟩
      simp only [List.length_cons]
      omega

lemma mkSteps_exists {l : List StepInput} {i : Nat} :
    ∀ k, i + 1 ≤ k → k ≤ i + l.length →
      ∃ s ∈ mkSteps i l, s.stepOrder = k ∧ s.status = .PENDING ∧
        s.approverId = (l[k - i - 1]?).bind StepInput.approverId := by
  induction l generalizing i with
  | nil => intro k h1 h2; simp only [List.length_nil] at h2; omega
  | cons inp rest ih =>
    intro k h1 h2
    by_cases hk : k = i + 1
    · refine ⟨mkStep i inp, List.mem_cons_self _ _, ?_, rfl, ?_⟩
      · simp [mkStep, hk]
      · have : k - i - 1 = 0 := by omega
        simp [mkStep, this]
    · have h1a : i + 1 + 1 ≤ k := by omega
      have h2a : k ≤ i + 1 + rest.length := by
        simp only [List.length_cons] at h2; omega
      obtain ⟨s, hs, h3, h4, h5⟩ := ih k h1a h2a
      refine ⟨s, List.mem_cons_of_mem _ hs, h3, h4, ?_⟩
      have hidx : (inp :: rest)[k - i - 1]? = rest[k - (i + 1) - 1]? := by
        have hgt : k - i - 1 = (k - (i + 1) - 1) + 1 := by omega
        simp [hgt]
      rw [hidx]; exact h5

lemma createWorkflow_ok {stepsIn : List StepInput} {w : Workflow}
    (h : createWorkflow stepsIn = .ok w) :
    stepsIn.length ≠ 0 ∧
    w = { currentStep := 1, totalSteps := stepsIn.length, status := .PENDING,
          completedAt := none, cancellationReason := none, steps := mkSteps 0 stepsIn } := by
  unfold createWorkflow at h
  by_cases hl : stepsIn.length = 0
  · simp [hl] at h
  · simp [hl] at h
    exact ⟨hl, h.symm⟩

lemma findStep_some {w : Workflow} {stepId agentId : Nat} {step : WorkflowStep}
    (h : findStep w stepId agentId = some step) :
    step ∈ w.steps ∧ step.id = stepId ∧ step.approverId = some agentId := by
  have hmem := List.mem_of_find?_eq_some h
  have hp := List.find?_some h
  simp only [decide_eq_true_eq] at hp
  exact ⟨hmem, hp.1, hp.2⟩

lemma findStep_of_mem {w : Workflow} {stepId agentId : Nat} {s : WorkflowStep}
    (hs : s ∈ w.steps) (hid : s.id = stepId) (ha : s.approverId = some agentId) :
    ∃ t, findStep w stepId agentId = some t := by
  cases hf : findStep w stepId agentId with
  | some t => exact ⟨t, rfl⟩
  | none =>
    have hnone := List.find?_eq_none.mp hf s hs
    simp [hid, ha] at hnone

/-- Case analysis on a successful run of the step-decision handler. -/
lemma decideStep_ok {w : Workflow} {stepId agentId : Nat} {v : Verdict}
    {comments approverNotes : Option String} {now : Nat} {w1 : Workflow}
    (h : decideStep w stepId agentId v comments approverNotes now = .ok w1) :
    ∃ step, findStep w stepId agentId = some step ∧
      w.currentStep = step.stepOrder ∧
      ((v = .APPROVED ∧ step.stepOrder < w.totalSteps ∧
          w1 = { w with
                  steps := decidedSteps w stepId agentId v comments approverNotes now
                  currentStep := step.stepOrder + 1 }) ∨
       (v = .APPROVED ∧ ¬ step.stepOrder < w.totalSteps ∧
          w1 = { w with
                  steps := decidedSteps w stepId agentId v comments approverNotes now
                  status := .APPROVED, completedAt := some now }) ∨
       (v = .REJECTED ∧
          w1 = { w with
                  steps := decidedSteps w stepId agentId v comments approverNotes now
                  status := .REJECTED, completedAt := some now })) := by
  unfold decideStep at h
  split at h
  · simp at h
  next step hfind =>
    split at h
    · simp at h
    next hcur =>
      refine ⟨step, hfind, not_ne_iff.mp hcur, ?_⟩
      cases v with
      | APPROVED =>
        dsimp only at h
        split at h
        next hlt => exact Or.inl ⟨rfl, hlt, (Except.ok.inj h).symm⟩
        next hge => exact Or.inr (Or.inl ⟨rfl, hge, (Except.ok.inj h).symm⟩)
      | REJECTED =>
        dsimp only at h
        exact Or.inr (Or.inr ⟨rfl, (Except.ok.inj h).symm⟩)

lemma updateStepRecord_id (v : Verdict) (comments approverNotes : Option String)
    (agentId now : Nat) (s : WorkflowStep) :
    (updateStepRecord v comments approverNotes agentId now s).id = s.id := rfl

lemma updateStepRecord_stepOrder (v : Verdict) (comments approverNotes : Option String)
    (agentId now : Nat) (s : WorkflowStep) :
    (updateStepRecord v comments approverNotes agentId now s).stepOrder = s.stepOrder := rfl

lemma updateStepRecord_status (v : Verdict) (comments approverNotes : Option String)
    (agentId now : Nat) (s : WorkflowStep) :
    (updateStepRecord v comments approverNotes agentId now s).status = verdictStepStatus v := rfl

lemma mem_decidedSteps {w : Workflow} {stepId agentId : Nat} {v : Verdict}
    {comments approverNotes : Option String} {now : Nat} {t : WorkflowStep}
    (ht : t ∈ decidedSteps w stepId agentId v comments approverNotes now) :
    ∃ s ∈ w.steps,
      ((s.id = stepId ∧ t = updateStepRecord v comments approverNotes agentId now s) ∨
       (s.id ≠ stepId ∧ t = s)) := by
  obtain ⟨s, hs, hts⟩ := List.mem_map.mp ht
  by_cases hid : s.id = stepId
  · exact ⟨s, hs, Or.inl ⟨hid, by rw [← hts, if_pos hid]⟩⟩
  · exact ⟨s, hs, Or.inr ⟨hid, by rw [← hts, if_neg hid]⟩⟩

lemma decidedSteps_of_mem {w : Workflow} {stepId agentId : Nat} {v : Verdict}
    {comments approverNotes : Option String} {now : Nat} {s : WorkflowStep}
    (hs : s ∈ w.steps) :
    (if s.id = stepId then updateStepRecord v comments approverNotes agentId now s else s)
      ∈ decidedSteps w stepId agentId v comments approverNotes now :=
  List.mem_map_of_mem _ hs

lemma wfInv_create {stepsIn : List StepInput} {w : Workflow}
    (h : createWorkflow stepsIn = .ok w) : WfInv w := by
  obtain ⟨hne, hw⟩ := createWorkflow_ok h
  subst hw
  unfold WfInv
  dsimp only
  refine ⟨?_, ?_, by decide, ?_⟩
  · intro s hs
    obtain ⟨h1, h2, h3, _⟩ := mkSteps_mem s hs
    simp only [Nat.zero_add] at h2 h3
    exact ⟨h1, h2, h3⟩
  · intro k hk1 hk2
    obtain ⟨s, hs, h3, _, _⟩ := @mkSteps_exists stepsIn 0 k (by omega) (by omega)
    exact ⟨s, hs, h3⟩
  · intro _
    refine ⟨Nat.le_refl 1, by omega, ?_⟩
    intro s hs
    obtain ⟨_, h2, _, h4⟩ := mkSteps_mem s hs
    simp only [Nat.zero_add] at h2
    exact ⟨fun hlt => absurd hlt (by omega), fun _ => h4⟩

lemma wfInv_decide {w : Workflow} {stepId agentId : Nat} {v : Verdict}
    {comments approverNotes : Option String} {now : Nat} {w1 : Workflow}
    (hinv : WfInv w)
    (h : decideStep w stepId agentId v comments approverNotes now = .ok w1) :
    WfInv w1 := by
  obtain ⟨hshape, hexists, hnip, hpend⟩ := hinv
  obtain ⟨step, hfind, hcur, hcase⟩ := decideStep_ok h
  obtain ⟨hstepmem, hstepid, _⟩ := findStep_some hfind
  obtain ⟨hso, hso1, hsoN⟩ := hshape step hstepmem
  have hstepId : stepId = w.currentStep := by rw [hcur, ← hso, hstepid]
  have hshape1 : ∀ t ∈ decidedSteps w stepId agentId v comments approverNotes now,
      t.id = t.stepOrder ∧ 1 ≤ t.stepOrder ∧ t.stepOrder ≤ w.totalSteps := by
    intro t ht
    obtain ⟨s, hs, hcs⟩ := mem_decidedSteps ht
    obtain ⟨h1, h2, h3⟩ := hshape s hs
    rcases hcs with ⟨_, rfl⟩ | ⟨_, rfl⟩
    · rw [updateStepRecord_id, updateStepRecord_stepOrder]
      exact ⟨h1, h2, h3⟩
    · exact ⟨h1, h2, h3⟩
  have hexists1 : ∀ k, 1 ≤ k → k ≤ w.totalSteps →
      ∃ t ∈ decidedSteps w stepId agentId v comments approverNotes now, t.stepOrder = k := by
    intro k hk1 hk2
    obtain ⟨s, hs, hsk⟩ := hexists k hk1 hk2
    refine ⟨_, decidedSteps_of_mem hs, ?_⟩
    by_cases hid : s.id = stepId
    · rw [if_pos hid, updateStepRecord_stepOrder]; exact hsk
    · rw [if_neg hid]; exact hsk
  rcases hcase with ⟨hv, hlt, rfl⟩ | ⟨hv, hge, rfl⟩ | ⟨hv, rfl⟩
  · -- APPROVED on a step that is not the last one
    unfold WfInv
    dsimp only
    refine ⟨hshape1, hexists1, hnip, ?_⟩
    intro hst
    obtain ⟨hc1, hcN, hstat⟩ := hpend hst
    refine ⟨by omega, by omega, ?_⟩
    intro t ht
    obtain ⟨s, hs, hcs⟩ := mem_decidedSteps ht
    obtain ⟨hsid, hs1, hsN⟩ := hshape s hs
    rcases hcs with ⟨hid, hts⟩ | ⟨hid, hts⟩
    · subst hts
      have hords : s.stepOrder = step.stepOrder := by
        rw [← hsid, hid, hstepId, hcur]
      rw [updateStepRecord_stepOrder, updateStepRecord_status, hv, hords]
      exact ⟨fun _ => rfl, fun hle => absurd hle (by omega)⟩
    · subst hts
      have hne2 : t.stepOrder ≠ step.stepOrder := by
        intro hx
        apply hid
        rw [hsid, hx, ← hcur]
        exact hstepId.symm
      obtain ⟨hlo, hhi⟩ := hstat t hs
      rw [hcur] at hlo hhi
      exact ⟨fun hx => hlo (by omega), fun hx => hhi (by omega)⟩
  · -- APPROVED on the last step: the workflow becomes APPROVED
    exact ⟨hshape1, hexists1, fun hx => WorkflowStatus.noConfusion hx,
      fun hx => WorkflowStatus.noConfusion hx⟩
  · -- REJECTED: the workflow becomes REJECTED
    exact ⟨hshape1, hexists1, fun hx => WorkflowStatus.noConfusion hx,
      fun hx => WorkflowStatus.noConfusion hx⟩

lemma wfInv_cancel {w : Workflow} {reason : Option String} {now : Nat} {w1 : Workflow}
    (hinv : WfInv w) (h : cancelWorkflow w reason now = .ok w1) : WfInv w1 := by
  unfold cancelWorkflow at h
  split at h
  · simp at h
  · obtain ⟨hshape, hexists, _, _⟩ := hinv
    have hw1 := (Except.ok.inj h).symm
    subst hw1
    exact ⟨hshape, hexists, by simp, by simp⟩

/-- Every reachable workflow state satisfies the handler invariant. -/
lemma reachable_wfInv {w : Workflow} (h : Reachable w) : WfInv w := by
  induction h with
  | created stepsIn w hc => exact wfInv_create hc
  | decided w stepId agentId v comments approverNotes now w1 _ hd ih =>
    exact wfInv_decide ih hd
  | cancelled w reason now w1 _ hc ih => exact wfInv_cancel ih hc

lemma midState_create {stepsIn : List StepInput} {w : Workflow}
    (h : createWorkflow stepsIn = .ok w) :
    MidState (apvOf stepsIn) stepsIn.length 1 w := by
  obtain ⟨hne, hw⟩ := createWorkflow_ok h
  subst hw
  unfold MidState
  dsimp only
  refine ⟨rfl, rfl, rfl, Nat.le_refl 1, by omega, ?_, ?_⟩
  · intro s hs
    exact (mkSteps_mem s hs).1
  · intro k hk1 hkN
    obtain ⟨s, hs, h1, h2, h3⟩ := @mkSteps_exists stepsIn 0 k (by omega) (by omega)
    refine ⟨s, hs, h1, h2, ?_⟩
    rw [h3]
    unfold apvOf
    simp only [Nat.sub_zero]

lemma midState_approve {apv : Nat → Option Nat} {N c : Nat} {w : Workflow} {a now : Nat}
    (hm : MidState apv N c w) (ha : apv c = some a) :
    ∃ w1, decideStep w c a .APPROVED none none now = .ok w1 ∧
      (c < N → MidState apv N (c + 1) w1) ∧
      (c = N → w1.status = .APPROVED ∧ w1.completedAt = some now) := by
  obtain ⟨hpend, hN, hc, hc1, hcN, hids, hex⟩ := hm
  obtain ⟨s, hs, hso, hsp, hsa⟩ := hex c (Nat.le_refl c) hcN
  have hsid : s.id = c := by rw [hids s hs, hso]
  have hsa2 : s.approverId = some a := by rw [hsa, ha]
  obtain ⟨t, hfind⟩ := findStep_of_mem hs hsid hsa2
  obtain ⟨htmem, htid, hta⟩ := findStep_some hfind
  have hto : t.stepOrder = c := by rw [← hids t htmem, htid]
  have hguard : ¬ (w.currentStep ≠ t.stepOrder) := not_ne_iff.mpr (by rw [hc, hto])
  have hres : decideStep w c a .APPROVED none none now =
      (if t.stepOrder < w.totalSteps then
        .ok { w with steps := decidedSteps w c a .APPROVED none none now
                     currentStep := t.stepOrder + 1 }
      else
        .ok { w with steps := decidedSteps w c a .APPROVED none none now
                     status := .APPROVED, completedAt := some now }) := by
    unfold decideStep
    rw [hfind]
    dsimp only
    rw [if_neg hguard]
  have hids1 : ∀ u ∈ decidedSteps w c a .APPROVED none none now, u.id = u.stepOrder := by
    intro u hu
    obtain ⟨p, hp, hcs⟩ := mem_decidedSteps hu
    rcases hcs with ⟨_, hup⟩ | ⟨_, hup⟩
    · subst hup
      rw [updateStepRecord_id, updateStepRecord_stepOrder]
      exact hids _ hp
    · subst hup
      exact hids _ hp
  have hex1 : ∀ k, c + 1 ≤ k → k ≤ N →
      ∃ u ∈ decidedSteps w c a .APPROVED none none now,
        u.stepOrder = k ∧ u.status = .PENDING ∧ u.approverId = apv k := by
    intro k hk1 hkN
    obtain ⟨u, hu, h1, h2, h3⟩ := hex k (by omega) hkN
    have huid : u.id ≠ c := by rw [hids u hu, h1]; omega
    have humem := @decidedSteps_of_mem w c a .APPROVED none none now u hu
    rw [if_neg huid] at humem
    exact ⟨u, humem, h1, h2, h3⟩
  rw [hto, hN] at hres
  by_cases hlt : c < N
  · rw [if_pos hlt] at hres
    refine ⟨_, hres, fun _ => ?_, fun hx => absurd hx (by omega)⟩
    unfold MidState
    dsimp only
    exact ⟨hpend, rfl, rfl, by omega, by omega, hids1, hex1⟩
  · rw [if_neg hlt] at hres
    exact ⟨_, hres, fun hx => absurd hx hlt, fun _ => ⟨rfl, rfl⟩⟩

lemma approveSteps_chain {apv : Nat → Option Nat} {N now : Nat} :
    ∀ (calls : List (Nat × Nat)) (c : Nat) (w : Workflow),
      ChainCalls apv N c calls → MidState apv N c w →
      ∃ w1, approveSteps w calls now = .ok w1 ∧
        w1.status = .APPROVED ∧ w1.completedAt = some now := by
  intro calls
  induction calls with
  | nil =>
    intro c w hcc hm
    cases hcc with
    | done _ hc =>
      exact absurd hm.2.2.2.2.1 (by omega)
  | cons ka rest ih =>
    intro c w hcc hm
    cases hcc with
    | step _ a _ hcN ha hrest =>
      obtain ⟨w1, hd, hmid, hfin⟩ := midState_approve hm ha
      cases rest with
      | nil =>
        cases hrest with
        | done _ hc =>
          have hcEq : c = N := by omega
          obtain ⟨hap, hcomp⟩ := hfin hcEq
          refine ⟨w1, ?_, hap, hcomp⟩
          simp only [approveSteps, hd]
      | cons kb rest2 =>
        have hlt : c < N := by
          cases hrest with
          | step _ _ _ hcN2 _ _ => omega
        obtain ⟨w2, hap2, h2⟩ := ih (c + 1) w1 hrest (hmid hlt)
        refine ⟨w2, ?_, h2⟩
        simp only [approveSteps, hd]
        exact hap2

lemma forall2_map_self {α : Type} (R : α → α → Prop) (f : α → α) :
    ∀ l : List α, (∀ x ∈ l, R x (f x)) → List.Forall₂ R l (l.map f) := by
  intro l h
  induction l with
  | nil => exact List.Forall₂.nil
  | cons x xs ih =>
    exact List.Forall₂.cons (h x (List.mem_cons_self x xs))
      (ih fun y hy => h y (List.mem_cons_of_mem x hy))

lemma map_id_of_fixed {α : Type} (f : α → α) :
    ∀ l : List α, (∀ x ∈ l, f x = x) → l.map f = l := by
  intro l h
  induction l with
  | nil => rfl
  | cons x xs ih =>
    rw [List.map_cons, h x (List.mem_cons_self x xs),
      ih fun y hy => h y (List.mem_cons_of_mem x hy)]

lemma filter_all_iff {α : Type} (p : α → Bool) (l : List α) :
    (l.filter p).length = l.length ↔ ∀ a ∈ l, p a = true := by
  rw [← List.countP_eq_length_filter]
  exact List.countP_eq_length

lemma resolveItem_not_pending (outcome : Nat → Bool) (apptIdOf : Nat → Nat) (now : Nat)
    (item : BulkBookingItem) :
    (resolveItem outcome apptIdOf now item).status ≠ .PENDING := by
  unfold resolveItem
  by_cases hp : item.status = .PENDING
  · rw [if_pos hp]
    by_cases ho : outcome item.id
    · rw [if_pos ho]
      exact fun hx => ItemStatus.noConfusion hx
    · rw [if_neg ho]
      exact fun hx => ItemStatus.noConfusion hx
  · rw [if_neg hp]
    exact hp

lemma success_failed_partition :
    ∀ l : List BulkBookingItem, (∀ i ∈ l, i.status ≠ .PENDING) →
      (l.filter fun i => i.status = .SUCCESS).length +
        (l.filter fun i => i.status = .FAILED).length = l.length := by
  intro l h
  induction l with
  | nil => rfl
  | cons x xs ih =>
    have hx := h x (List.mem_cons_self x xs)
    have hxs := ih fun i hi => h i (List.mem_cons_of_mem x hi)
    cases hst : x.status with
    | PENDING => exact absurd hst hx
    | SUCCESS =>
      simp only [List.filter_cons, hst, List.length_cons]
      simp only [decide_eq_true_eq]
      rw [if_pos trivial, if_neg (fun hx2 => ItemStatus.noConfusion hx2)]
      simp only [List.length_cons]
      omega
    | FAILED =>
      simp only [List.filter_cons, hst, List.length_cons]
      simp only [decide_eq_true_eq]
      rw [if_pos trivial, if_neg (fun hx2 => ItemStatus.noConfusion hx2)]
      simp only [List.length_cons]
      omega

/-! ## Claim theorems -/

/-- Claim C1: a workflow created from any nonempty step list (totalSteps =
N, arbitrary isOptional flags) reaches status APPROVED with completedAt set
after exactly the N APPROVED decisions issued in step order, each by the
approver of its step; and on any reachable non-terminal workflow a single
REJECTED decision at the active step (again regardless of isOptional)
immediately makes the status REJECTED with completedAt set, leaves
currentStep where it was, and leaves every step with stepOrder greater than
currentStep PENDING — no step is auto-processed. -/
theorem approve_all_terminal_reject_immediate :
    (∀ (stepsIn : List StepInput) (w0 : Workflow) (calls : List (Nat × Nat)) (now : Nat),
      createWorkflow stepsIn = .ok w0 →
      ChainCalls (apvOf stepsIn) stepsIn.length 1 calls →
      ∃ w1, approveSteps w0 calls now = .ok w1 ∧
        w1.status = .APPROVED ∧ w1.completedAt = some now) ∧
    (∀ (w : Workflow) (stepId agentId : Nat) (comments approverNotes : Option String)
        (now : Nat) (w1 : Workflow),
      Reachable w → ¬ TerminalStatus w.status →
      decideStep w stepId agentId .REJECTED comments approverNotes now = .ok w1 →
      w1.status = .REJECTED ∧ w1.completedAt = some now ∧
      w1.currentStep = w.currentStep ∧
      ∀ s ∈ w1.steps, w1.currentStep < s.stepOrder → s.status = .PENDING) := by
  constructor
  · intro stepsIn w0 calls now hcreate hcc
    exact approveSteps_chain calls 1 w0 hcc (midState_create hcreate)
  · intro w stepId agentId comments approverNotes now w1 hreach hterm hd
    obtain ⟨hshape, hexists, hnip, hpend⟩ := reachable_wfInv hreach
    have hst : w.status = .PENDING := by
      cases hx : w.status
      case PENDING => rfl
      case IN_PROGRESS => exact absurd hx hnip
      case APPROVED => exact absurd (Or.inl hx) hterm
      case REJECTED => exact absurd (Or.inr (Or.inl hx)) hterm
      case CANCELLED => exact absurd (Or.inr (Or.inr hx)) hterm
    obtain ⟨hc1, hcN, hstat⟩ := hpend hst
    obtain ⟨step, hfind, hcur, hcase⟩ := decideStep_ok hd
    obtain ⟨hstepmem, hstepid, _⟩ := findStep_some hfind
    have hstepId : stepId = w.currentStep := by
      rw [hcur, ← (hshape step hstepmem).1, hstepid]
    rcases hcase with ⟨hv, _, _⟩ | ⟨hv, _, _⟩ | ⟨_, hw1⟩
    · exact Verdict.noConfusion hv
    · exact Verdict.noConfusion hv
    · subst hw1
      refine ⟨rfl, rfl, rfl, ?_⟩
      intro t ht hgt
      dsimp only at ht hgt
      obtain ⟨s, hs, hcs⟩ := mem_decidedSteps ht
      rcases hcs with ⟨hid, hts⟩ | ⟨hid, hts⟩
      · subst hts
        rw [updateStepRecord_stepOrder] at hgt
        have : s.stepOrder = w.currentStep := by
          rw [← (hshape s hs).1, hid, hstepId]
        omega
      · subst hts
        exact (hstat t hs).2 (by omega)

/-- Claim C1 witness: the two-step fixture is approved to termination by
its two in-order decisions, and the one-step fixture is terminal REJECTED
with untouched later steps after its single rejection. -/
theorem approve_all_terminal_reject_immediate_witness :
    (∃ w1, approveSteps wfTwo [(1, 7), (2, 8)] 5 = .ok w1 ∧
      w1.status = .APPROVED ∧ w1.completedAt = some 5) ∧
    (wfOneRejected.status = .REJECTED ∧ wfOneRejected.completedAt = some 3 ∧
      wfOneRejected.currentStep = wfOne.currentStep ∧
      ∀ s ∈ wfOneRejected.steps, wfOneRejected.currentStep < s.stepOrder →
        s.status = .PENDING) :=
  ⟨approve_all_terminal_reject_immediate.1 [⟨some 7, false⟩, ⟨some 8, true⟩] wfTwo
      [(1, 7), (2, 8)] 5 rfl
      (ChainCalls.step 1 7 _ (by decide) rfl
        (ChainCalls.step 2 8 _ (by decide) rfl (ChainCalls.done 3 rfl))),
   approve_all_terminal_reject_immediate.2 wfOne 1 7 none none 3 wfOneRejected
      (Reachable.created [⟨some 7, false⟩] wfOne rfl) (by decide) rfl⟩

/-- Claim C5: a decideStep call on a step whose stepOrder differs from the
workflow currentStep fails with the StepNotActive error; this 400 response
is issued before the step or the workflow row is written, so nothing is
mutated. -/
theorem inactive_step_decision_fails :
    ∀ (w : Workflow) (stepId agentId : Nat) (v : Verdict)
      (comments approverNotes : Option String) (now : Nat) (s : WorkflowStep),
      findStep w stepId agentId = some s → s.stepOrder ≠ w.currentStep →
      decideStep w stepId agentId v comments approverNotes now =
        .error .StepNotActive := by
  intro w stepId agentId v comments approverNotes now s hfind hne
  unfold decideStep
  rw [hfind]
  dsimp only
  rw [if_pos (Ne.symm hne)]

/-- Claim C5 witness: deciding step 2 of the fresh two-step fixture (whose
currentStep is 1) fails with StepNotActive. -/
theorem inactive_step_decision_fails_witness :
    decideStep wfTwo 2 8 .APPROVED none none 6 = .error .StepNotActive :=
  inactive_step_decision_fails wfTwo 2 8 .APPROVED none none 6
    { id := 2, stepOrder := 2, approverId := some 8, isOptional := true,
      status := .PENDING, comments := none, approverNotes := none,
      processedAt := none, processedBy := none } rfl (by decide)

/-- Claim C3 counterexample: wfOneRejected is reachable and terminal
(REJECTED), yet a further decideStep call succeeds — the handler checks
only currentStep, never the workflow status — and changes the step 1 record
from REJECTED to APPROVED, so a step record does change after the workflow
is terminal. -/
theorem terminal_workflow_step_still_mutated :
    Reachable wfOneRejected ∧ TerminalStatus wfOneRejected.status ∧
    decideStep wfOneRejected 1 7 .APPROVED none none 4 = .ok wfOneRevised ∧
    (∃ s ∈ wfOneRejected.steps, s.stepOrder = 1 ∧ s.status = .REJECTED) ∧
    (∃ s ∈ wfOneRevised.steps, s.stepOrder = 1 ∧ s.status = .APPROVED) :=
  ⟨Reachable.decided wfOne 1 7 .REJECTED none none 3 wfOneRejected
      (Reachable.created [⟨some 7, false⟩] wfOne rfl) rfl,
   by decide, rfl, by decide, by decide⟩

/-- Claim C3 amended: on every reachable workflow, while the status is not
terminal, currentStep is the lowest stepOrder whose step status is in
{PENDING, IN_PROGRESS} (the step at currentStep is PENDING and every
PENDING or IN_PROGRESS step has stepOrder at least currentStep); once the
status is terminal, cancel changes no step and a successful decideStep
leaves every step whose stepOrder differs from currentStep unchanged,
position by position — only the step still pointed at by currentStep can be
re-decided (as the counterexample shows). -/
theorem currentStep_is_lowest_active :
    (∀ w : Workflow, Reachable w → ¬ TerminalStatus w.status →
      (∃ s ∈ w.steps, s.stepOrder = w.currentStep ∧ s.status = .PENDING) ∧
      (∀ s ∈ w.steps, (s.status = .PENDING ∨ s.status = .IN_PROGRESS) →
        w.currentStep ≤ s.stepOrder)) ∧
    (∀ (w : Workflow) (reason : Option String) (now : Nat) (w1 : Workflow),
      cancelWorkflow w reason now = .ok w1 → w1.steps = w.steps) ∧
    (∀ (w : Workflow) (stepId agentId : Nat) (v : Verdict)
        (comments approverNotes : Option String) (now : Nat) (w1 : Workflow),
      Reachable w → TerminalStatus w.status →
      decideStep w stepId agentId v comments approverNotes now = .ok w1 →
      List.Forall₂ (fun s t => s.stepOrder ≠ w.currentStep → t = s) w.steps w1.steps) := by
  refine ⟨?_, ?_, ?_⟩
  · intro w hreach hterm
    obtain ⟨hshape, hexists, hnip, hpend⟩ := reachable_wfInv hreach
    have hst : w.status = .PENDING := by
      cases hx : w.status
      case PENDING => rfl
      case IN_PROGRESS => exact absurd hx hnip
      case APPROVED => exact absurd (Or.inl hx) hterm
      case REJECTED => exact absurd (Or.inr (Or.inl hx)) hterm
      case CANCELLED => exact absurd (Or.inr (Or.inr hx)) hterm
    obtain ⟨hc1, hcN, hstat⟩ := hpend hst
    constructor
    · obtain ⟨s, hs, hso⟩ := hexists w.currentStep hc1 hcN
      exact ⟨s, hs, hso, (hstat s hs).2 (by omega)⟩
    · intro s hs hactive
      by_contra hlt
      have happ := (hstat s hs).1 (by omega)
      rcases hactive with hx | hx <;> rw [happ] at hx <;> exact StepStatus.noConfusion hx
  · intro w reason now w1 h
    unfold cancelWorkflow at h
    split at h
    · exact absurd h (by simp)
    · rw [← Except.ok.inj h]
  · intro w stepId agentId v comments approverNotes now w1 hreach hterm hd
    obtain ⟨hshape, _, _, _⟩ := reachable_wfInv hreach
    obtain ⟨step, hfind, hcur, hcase⟩ := decideStep_ok hd
    obtain ⟨hstepmem, hstepid, _⟩ := findStep_some hfind
    have hstepId : stepId = w.currentStep := by
      rw [hcur, ← (hshape step hstepmem).1, hstepid]
    have hfa : List.Forall₂ (fun s t => s.stepOrder ≠ w.currentStep → t = s) w.steps
        (decidedSteps w stepId agentId v comments approverNotes now) := by
      apply forall2_map_self
      intro s hs hne
      rw [if_neg]
      rw [(hshape s hs).1, hstepId]
      exact hne
    rcases hcase with ⟨_, _, hw1⟩ | ⟨_, _, hw1⟩ | ⟨_, hw1⟩ <;> subst hw1 <;> exact hfa

/-- Claim C3 amended witness: the lowest-active property at the fresh
one-step fixture, the no-step-change property of cancel at the same
fixture, and the pointwise preservation of the non-current step rows when
the terminal wfOneRejected is re-decided. -/
theorem currentStep_is_lowest_active_witness :
    ((∃ s ∈ wfOne.steps, s.stepOrder = wfOne.currentStep ∧ s.status = .PENDING) ∧
      (∀ s ∈ wfOne.steps, (s.status = .PENDING ∨ s.status = .IN_PROGRESS) →
        wfOne.currentStep ≤ s.stepOrder)) ∧
    wfOneCancelled.steps = wfOne.steps ∧
    List.Forall₂ (fun s t => s.stepOrder ≠ wfOneRejected.currentStep → t = s)
      wfOneRejected.steps wfOneRevised.steps :=
  ⟨currentStep_is_lowest_active.1 wfOne (Reachable.created [⟨some 7, false⟩] wfOne rfl)
      (by decide),
   currentStep_is_lowest_active.2.1 wfOne none 9 wfOneCancelled rfl,
   currentStep_is_lowest_active.2.2 wfOneRejected 1 7 .APPROVED none none 4 wfOneRevised
      (Reachable.decided wfOne 1 7 .REJECTED none none 3 wfOneRejected
        (Reachable.created [⟨some 7, false⟩] wfOne rfl) rfl)
      (by decide) rfl⟩

/-- Claim C4 counterexample: wfOneRejected is reachable with the terminal
status REJECTED, yet deciding its current step again with APPROVED succeeds
and changes the workflow status to APPROVED — REJECTED is not an absorbing
state of the implementation. -/
theorem terminal_status_changed_by_redecision :
    Reachable wfOneRejected ∧ wfOneRejected.status = .REJECTED ∧
    decideStep wfOneRejected 1 7 .APPROVED none none 4 = .ok wfOneRevised ∧
    wfOneRevised.status = .APPROVED ∧ wfOneRevised.status ≠ wfOneRejected.status :=
  ⟨Reachable.decided wfOne 1 7 .REJECTED none none 3 wfOneRejected
      (Reachable.created [⟨some 7, false⟩] wfOne rfl) rfl,
   by decide, rfl, by decide, by decide⟩

/-- Claim C4 amended: the set {APPROVED, REJECTED, CANCELLED} is absorbing
— a terminal workflow can never be cancelled, and any successful decideStep
on it leaves the status terminal — but the individual terminal status is
not absorbing: a decideStep on the step at currentStep can replace one
terminal status by another (see the counterexample). -/
theorem terminal_set_absorbing :
    ∀ w : Workflow, TerminalStatus w.status →
      (∀ (reason : Option String) (now : Nat),
        cancelWorkflow w reason now = .error .NotCancellable) ∧
      (∀ (stepId agentId : Nat) (v : Verdict) (comments approverNotes : Option String)
          (now : Nat) (w1 : Workflow),
        decideStep w stepId agentId v comments approverNotes now = .ok w1 →
        TerminalStatus w1.status) := by
  intro w hterm
  constructor
  · intro reason now
    have hcond : w.status ≠ .PENDING ∧ w.status ≠ .IN_PROGRESS := by
      rcases hterm with hx | hx | hx <;> rw [hx] <;>
        exact ⟨fun h2 => WorkflowStatus.noConfusion h2,
               fun h2 => WorkflowStatus.noConfusion h2⟩
    unfold cancelWorkflow
    rw [if_pos hcond]
  · intro stepId agentId v comments approverNotes now w1 hd
    obtain ⟨step, _, _, hcase⟩ := decideStep_ok hd
    rcases hcase with ⟨_, _, hw1⟩ | ⟨_, _, hw1⟩ | ⟨_, hw1⟩ <;> subst hw1
    · exact hterm
    · exact Or.inl rfl
    · exact Or.inr (Or.inl rfl)

/-- Claim C4 amended witness: the terminal wfOneRejected cannot be
cancelled, and its re-decision wfOneRevised still has a terminal status. -/
theorem terminal_set_absorbing_witness :
    cancelWorkflow wfOneRejected none 9 = .error .NotCancellable ∧
    TerminalStatus wfOneRevised.status :=
  ⟨(terminal_set_absorbing wfOneRejected (by decide)).1 none 9,
   (terminal_set_absorbing wfOneRejected (by decide)).2 1 7 .APPROVED none none 4
      wfOneRevised rfl⟩

/-- Claim C9 counterexample: approving step 1 of the freshly created
two-step fixture advances currentStep to 2, but the workflow status stays
PENDING — the APPROVED branch of the handler only writes currentStep for a
non-final step and nothing in the module ever writes IN_PROGRESS. -/
theorem first_approval_leaves_status_pending :
    decideStep wfTwo 1 7 .APPROVED none none 3 = .ok wfTwoApproved1 ∧
    wfTwoApproved1.currentStep = 2 ∧
    wfTwoApproved1.status = .PENDING ∧
    wfTwoApproved1.status ≠ .IN_PROGRESS :=
  ⟨rfl, by decide, by decide, by decide⟩

/-- Claim C9 amended: an APPROVED decision on a step with stepOrder below
totalSteps advances currentStep by exactly one and leaves the workflow
status field unchanged — so a PENDING workflow remains PENDING after its
first approval; IN_PROGRESS is never assigned. -/
theorem approval_advances_currentStep_only :
    ∀ (w : Workflow) (stepId agentId : Nat) (comments approverNotes : Option String)
      (now : Nat) (s : WorkflowStep) (w1 : Workflow),
      findStep w stepId agentId = some s → s.stepOrder < w.totalSteps →
      decideStep w stepId agentId .APPROVED comments approverNotes now = .ok w1 →
      w1.currentStep = w.currentStep + 1 ∧ w1.status = w.status := by
  intro w stepId agentId comments approverNotes now s w1 hfind hlt hd
  obtain ⟨step, hfind2, hcur, hcase⟩ := decideStep_ok hd
  rw [hfind] at hfind2
  have hss : s = step := Option.some.inj hfind2
  subst hss
  rcases hcase with ⟨_, _, hw1⟩ | ⟨_, hge, _⟩ | ⟨hv, _⟩
  · subst hw1
    exact ⟨by rw [hcur], rfl⟩
  · exact absurd hlt hge
  · exact Verdict.noConfusion hv

/-- Claim C9 amended witness: the amended statement evaluated on the fresh
two-step fixture. -/
theorem approval_advances_currentStep_only_witness :
    wfTwoApproved1.currentStep = wfTwo.currentStep + 1 ∧
    wfTwoApproved1.status = wfTwo.status :=
  approval_advances_currentStep_only wfTwo 1 7 none none 3
    { id := 1, stepOrder := 1, approverId := some 7, isOptional := false,
      status := .PENDING, comments := none, approverNotes := none,
      processedAt := none, processedBy := none } wfTwoApproved1 rfl (by decide) rfl

/-- Claim C8 counterexample: the step and workflow rows are written by two
separate update calls with no enclosing transaction; when the workflow
write is lost after the step write committed, the observable state of the
one-step fixture has step 1 APPROVED while currentStep still points at it
and the status is still PENDING — the state is neither the pre-transition
one nor atomic. -/
theorem partial_write_observable :
    decideStepWorkflowWriteLost wfOne 1 7 .APPROVED none none 3 = .ok wfOneHalfWritten ∧
    (∃ s ∈ wfOneHalfWritten.steps, s.stepOrder = 1 ∧ s.status = .APPROVED) ∧
    wfOneHalfWritten.currentStep = 1 ∧
    wfOneHalfWritten.status = .PENDING ∧
    wfOneHalfWritten ≠ wfOne :=
  ⟨rfl, by decide, by decide, by decide, by decide⟩

/-- Claim C8 amended: when the workflow write of a step decision fails
after the step write, the resulting state keeps the pre-transition
currentStep, status and completedAt while the decided step row (with the
verdict, processedAt and processedBy set) is present in the step list —
the two-record transition is not atomic and does not roll back. -/
theorem partial_write_shape :
    ∀ (w : Workflow) (stepId agentId : Nat) (v : Verdict)
      (comments approverNotes : Option String) (now : Nat) (s : WorkflowStep)
      (w1 : Workflow),
      findStep w stepId agentId = some s →
      decideStepWorkflowWriteLost w stepId agentId v comments approverNotes now = .ok w1 →
      w1.currentStep = w.currentStep ∧ w1.status = w.status ∧
      w1.completedAt = w.completedAt ∧
      updateStepRecord v comments approverNotes agentId now s ∈ w1.steps := by
  intro w stepId agentId v comments approverNotes now s w1 hfind hd
  unfold decideStepWorkflowWriteLost at hd
  rw [hfind] at hd
  dsimp only at hd
  split at hd
  · exact absurd hd (by simp)
  · rw [← Except.ok.inj hd]
    refine ⟨rfl, rfl, rfl, ?_⟩
    obtain ⟨hsmem, hsid, _⟩ := findStep_some hfind
    have hm := @decidedSteps_of_mem w stepId agentId v comments approverNotes now s hsmem
    rw [if_pos hsid] at hm
    exact hm

/-- Claim C8 amended witness: the amended statement evaluated on the
one-step fixture with a lost workflow write. -/
theorem partial_write_shape_witness :
    wfOneHalfWritten.currentStep = wfOne.currentStep ∧
    wfOneHalfWritten.status = wfOne.status ∧
    wfOneHalfWritten.completedAt = wfOne.completedAt ∧
    updateStepRecord .APPROVED none none 7 3
      { id := 1, stepOrder := 1, approverId := some 7, isOptional := false,
        status := .PENDING, comments := none, approverNotes := none,
        processedAt := none, processedBy := none } ∈ wfOneHalfWritten.steps :=
  partial_write_shape wfOne 1 7 .APPROVED none none 3
    { id := 1, stepOrder := 1, approverId := some 7, isOptional := false,
      status := .PENDING, comments := none, approverNotes := none,
      processedAt := none, processedBy := none } wfOneHalfWritten rfl rfl

/-- Claim C2: after processBatch resolves every PENDING item (each to
SUCCESS or FAILED, one item at a time, independent of the others), the
stored successfulItems and failedItems equal the SUCCESS and FAILED counts
recomputed over the full item set of the batch, and the final status is
FAILED exactly when every item of the batch is FAILED and COMPLETED in
every other case, mixed outcomes included. -/
theorem batch_counters_and_status_recomputed :
    ∀ (b : BulkBooking) (outcome : Nat → Bool) (apptIdOf : Nat → Nat) (now : Nat),
      (processBulkBooking b outcome apptIdOf now).successfulItems =
        ((processBulkBooking b outcome apptIdOf now).items.filter
          fun i => i.status = .SUCCESS).length ∧
      (processBulkBooking b outcome apptIdOf now).failedItems =
        ((processBulkBooking b outcome apptIdOf now).items.filter
          fun i => i.status = .FAILED).length ∧
      ((processBulkBooking b outcome apptIdOf now).status = .FAILED ↔
        ∀ i ∈ (processBulkBooking b outcome apptIdOf now).items, i.status = .FAILED) ∧
      ((processBulkBooking b outcome apptIdOf now).status = .FAILED ∨
        (processBulkBooking b outcome apptIdOf now).status = .COMPLETED) := by
  intro b outcome apptIdOf now
  unfold processBulkBooking
  dsimp only
  refine ⟨rfl, rfl, ?_, ?_⟩
  · constructor
    · intro hif
      intro i hi
      revert hif
      split
      · next hc =>
        intro _
        have hall := (filter_all_iff _ _).mp hc
        simpa using hall i hi
      · next hc =>
        intro hx
        exact absurd hx (fun h2 => BatchStatus.noConfusion h2)
    · intro hall
      split
      · rfl
      · next hc =>
        exfalso
        apply hc
        apply (filter_all_iff _ _).mpr
        intro i hi
        simpa using hall i hi
  · split
    · exact Or.inl rfl
    · exact Or.inr rfl

/-- Claim C6 counterexample: the catch-all error path of processaBulkBooking
marks the freshly created one-item batch FAILED with completedAt set but
does not touch the counters, so the batch sits at status FAILED with
successfulItems + failedItems = 0 while totalItems = 1. -/
theorem crash_leaves_stale_counters :
    createBulkBooking [(5, 9)] 9 (some 5) (some "batch one") (some [⟨1, 2⟩]) = .ok bkOne ∧
    (processBulkBookingCrash bkOne 2).status = .FAILED ∧
    (processBulkBookingCrash bkOne 2).successfulItems +
        (processBulkBookingCrash bkOne 2).failedItems ≠
      (processBulkBookingCrash bkOne 2).totalItems :=
  ⟨rfl, by decide, by decide⟩

/-- Claim C6 amended: whenever the status was set by the normal completion
path of processBatch, the invariant holds — for any batch whose totalItems
equals its number of items (as creation guarantees), the recomputed
counters sum to totalItems and the status lands in {COMPLETED, FAILED};
the error path of the processor, however, writes status FAILED without
recomputing the counters, so the equality can fail after a persistence
error (see the counterexample). -/
theorem counter_sum_after_normal_process :
    ∀ (b : BulkBooking) (outcome : Nat → Bool) (apptIdOf : Nat → Nat) (now : Nat),
      b.totalItems = b.items.length →
      ((processBulkBooking b outcome apptIdOf now).status = .COMPLETED ∨
        (processBulkBooking b outcome apptIdOf now).status = .FAILED) ∧
      (processBulkBooking b outcome apptIdOf now).successfulItems +
          (processBulkBooking b outcome apptIdOf now).failedItems =
        (processBulkBooking b outcome apptIdOf now).totalItems := by
  intro b outcome apptIdOf now h
  unfold processBulkBooking
  dsimp only
  constructor
  · split
    · exact Or.inr rfl
    · exact Or.inl rfl
  · rw [success_failed_partition]
    · rw [List.length_map]
      exact h.symm
    · intro i hi
      obtain ⟨j, _, hj⟩ := List.mem_map.mp hi
      rw [← hj]
      exact resolveItem_not_pending outcome apptIdOf now j

/-- Claim C6 amended witness: the amended statement evaluated on the
one-item fixture batch. -/
theorem counter_sum_after_normal_process_witness :
    ((processBulkBooking bkOne (fun _ => true) (fun i => 100 + i) 10).status = .COMPLETED ∨
      (processBulkBooking bkOne (fun _ => true) (fun i => 100 + i) 10).status = .FAILED) ∧
    (processBulkBooking bkOne (fun _ => true) (fun i => 100 + i) 10).successfulItems +
        (processBulkBooking bkOne (fun _ => true) (fun i => 100 + i) 10).failedItems =
      (processBulkBooking bkOne (fun _ => true) (fun i => 100 + i) 10).totalItems :=
  counter_sum_after_normal_process bkOne (fun _ => true) (fun i => 100 + i) 10 (by decide)

/-- Claim C7 counterexample: the processed one-item fixture has no PENDING
item left, yet running processBatch on it again is not a no-op — the final
update of the processor always writes completedAt with the time of the
call, so completedAt moves from 10 to 20 while status and counters stay
put. -/
theorem reprocess_is_not_noop :
    (∀ i ∈ bkOneDone.items, i.status ≠ .PENDING) ∧
    bkOneDone.completedAt = some 10 ∧
    processBulkBooking bkOneDone (fun _ => true) (fun i => 100 + i) 20 = bkOneDoneAgain ∧
    bkOneDoneAgain.completedAt = some 20 ∧
    bkOneDoneAgain.completedAt ≠ bkOneDone.completedAt :=
  ⟨by decide, by decide, rfl, by decide, by decide⟩

/-- Claim C7 amended: on a batch with no PENDING items whose counters and
status already agree with its item set, processBatch leaves the items, the
status and both counters unchanged, but it still overwrites completedAt
with the time of the call (after transiently setting status PROCESSING), so
the call is not a no-op on the batch row. -/
theorem reprocess_refreshes_completedAt :
    ∀ (b : BulkBooking) (outcome : Nat → Bool) (apptIdOf : Nat → Nat) (now : Nat),
      (∀ i ∈ b.items, i.status ≠ .PENDING) →
      b.successfulItems = (b.items.filter fun i => i.status = .SUCCESS).length →
      b.failedItems = (b.items.filter fun i => i.status = .FAILED).length →
      b.status = (if (b.items.filter fun i => i.status = .FAILED).length
          = b.items.length then .FAILED else .COMPLETED) →
      (processBulkBooking b outcome apptIdOf now).items = b.items ∧
      (processBulkBooking b outcome apptIdOf now).status = b.status ∧
      (processBulkBooking b outcome apptIdOf now).successfulItems = b.successfulItems ∧
      (processBulkBooking b outcome apptIdOf now).failedItems = b.failedItems ∧
      (processBulkBooking b outcome apptIdOf now).completedAt = some now := by
  intro b outcome apptIdOf now hnp hs hf hst
  have hitems : b.items.map (resolveItem outcome apptIdOf now) = b.items := by
    apply map_id_of_fixed
    intro i hi
    unfold resolveItem
    rw [if_neg (hnp i hi)]
  unfold processBulkBooking
  dsimp only
  rw [hitems]
  exact ⟨rfl, hst.symm, hs.symm, hf.symm, rfl⟩

/-- Claim C7 amended witness: the amended statement evaluated on the
processed one-item fixture at time 20. -/
theorem reprocess_refreshes_completedAt_witness :
    (processBulkBooking bkOneDone (fun _ => true) (fun i => 100 + i) 20).items =
      bkOneDone.items ∧
    (processBulkBooking bkOneDone (fun _ => true) (fun i => 100 + i) 20).status =
      bkOneDone.status ∧
    (processBulkBooking bkOneDone (fun _ => true) (fun i => 100 + i) 20).successfulItems =
      bkOneDone.successfulItems ∧
    (processBulkBooking bkOneDone (fun _ => true) (fun i => 100 + i) 20).failedItems =
      bkOneDone.failedItems ∧
    (processBulkBooking bkOneDone (fun _ => true) (fun i => 100 + i) 20).completedAt =
      some 20 :=
  reprocess_refreshes_completedAt bkOneDone (fun _ => true) (fun i => 100 + i) 20
    (by decide) (by decide) (by decide) (by decide)

/-- Claim C10 counterexample: a submission of 11 items (above the claimed
upper bound of 10) for an existing customer of the submitting agent does
not fail — the batch is created with totalItems = 11.  The 1..10 bound
exists only in a validator that the bulk-booking route never applies. -/
theorem eleven_item_submission_accepted :
    (createBulkBooking [(5, 9)] 9 (some 5) (some "big batch")
        (some (List.replicate 11 ⟨1, 2⟩))).map BulkBooking.totalItems = .ok 11 := rfl

/-- Claim C10 amended: a submission with an empty items list fails with the
validation error, and one whose customer does not exist or is owned by a
different agent fails with the not-found error; each failure happens before
the batch and its item rows are created.  The route enforces no upper bound
on the number of items (the counterexample shows 11 items accepted). -/
theorem submit_validation_no_upper_bound :
    ∀ (customers : List (Nat × Nat)) (agentId cid : Nat) (batchName : String)
      (apts : List AppointmentInput),
      (createBulkBooking customers agentId (some cid) (some batchName) (some []) =
        .error .EmptyAppointments) ∧
      ((∀ c ∈ customers, ¬ (c.1 = cid ∧ c.2 = agentId)) → apts ≠ [] →
        createBulkBooking customers agentId (some cid) (some batchName) (some apts) =
          .error .CustomerNotFound) := by
  intro customers agentId cid batchName apts
  constructor
  · rfl
  · intro hno hne
    unfold createBulkBooking
    dsimp only
    split
    · next hlen => exact absurd (List.length_eq_zero.mp hlen) hne
    · split
      · next hx =>
        exfalso
        obtain ⟨c, hc, hp⟩ := List.any_eq_true.mp hx
        exact hno c hc (of_decide_eq_true hp)
      · rfl

/-- Claim C10 amended witness: the empty submission fails, and a one-item
submission by agent 1 against customer 5 (owned by agent 9) fails with the
not-found error. -/
theorem submit_validation_no_upper_bound_witness :
    (createBulkBooking [(5, 9)] 1 (some 5) (some "batch x") (some []) =
      .error .EmptyAppointments) ∧
    createBulkBooking [(5, 9)] 1 (some 5) (some "batch x")
        (some [⟨1, 2⟩]) = .error .CustomerNotFound :=
  ⟨(submit_validation_no_upper_bound [(5, 9)] 1 5 "batch x" [⟨1, 2⟩]).1,
   (submit_validation_no_upper_bound [(5, 9)] 1 5 "batch x" [⟨1, 2⟩]).2
      (by decide) (by decide)⟩

end CorporateAgent
